import Mathlib

/-!
# Shallow embedding of the llm-router authentication / metering core

This file embeds the parts of the `llm_router` Python package that the
verified claims are about:

* `src/llm_router/models/api_key.py` — the persistent `APIKey` row
  (note: the mapped timestamp column is named `last_used`).
* `src/llm_router/utils/auth.py` — `APIKeyManager.generate_api_key`,
  `create_api_key`, `verify_api_key`, `increment_usage`.
* `src/llm_router/utils/tokens.py` — `TokenManager.create_token`,
  `verify_token`, `refresh_token`, `revoke_token`.
* `src/llm_router/api/auth.py` — the soft delete in `delete_api_key`.
* `src/llm_router/api/dependencies.py` — the credential dependency
  `verify_api_key` (modelled from the point where the raw key string has
  been extracted from the headers).
* `src/llm_router/api/chat.py` — `stream_chat_completion`, `log_usage`,
  `calculate_cost`.

Modelling conventions:

* The SQLAlchemy session / database is explicit state: `St` carries the
  list of `APIKey` rows and the optional Redis cache (an association list
  of string keys to string values; the 3600-second TTL of `setex` is not
  modelled because no claim depends on cache expiry).
* SHA-256 (`hashlib.sha256(...).hexdigest()`) is an external collaborator
  and is modelled as an explicit function parameter `hashF`; claims that
  need collision-freeness take `Function.Injective hashF` as a hypothesis.
* JWTs (the `jwt` library) are modelled symbolically: a token is its
  payload together with the key it was signed with; `jwt.decode` succeeds
  exactly when the signing key equals the verification key and the token
  is unexpired (PyJWT raises `ExpiredSignatureError` when `exp < now`).
* Random values (`secrets.token_urlsafe`, `uuid.uuid4().hex[:16]`,
  `secrets.token_hex`) are passed in as parameters.
* Timestamps are `Nat`; monetary cost is an exact rational (`ℚ`), the
  float arithmetic of the source being modelled exactly.
-/

set_option autoImplicit false

namespace LlmRouter

/-- The persistent `api_keys` row from `models/api_key.py`.  The mapped
columns are exactly: `id`, `key_hash`, `name`, `description`,
`created_at`, `last_used`, `is_active`, `rate_limit`, `usage_count`. -/
structure APIKey where
  id : String
  key_hash : String
  name : String
  description : String
  created_at : Nat
  last_used : Option Nat
  is_active : Bool
  rate_limit : Nat
  usage_count : Nat
deriving Repr, DecidableEq

/-- The Redis cache: an association list from redis keys to string values. -/
abbrev Cache := List (String × String)

/-- `redis.get k`. -/
def redisGet (c : Cache) (k : String) : Option String :=
  (c.find? fun e => e.1 == k).map (·.2)

/-- `redis.setex k ttl v` (the TTL is not modelled): overwrite the entry. -/
def redisSetex (c : Cache) (k v : String) : Cache :=
  (k, v) :: c.filter fun e => e.1 != k

/-- The explicit system state: the key store (database rows, in insertion
order) and the optional Redis client with its contents. -/
structure St where
  store : List APIKey
  cache : Option Cache
deriving Repr, DecidableEq

/-- `db.query(APIKey).filter(APIKey.id == kid).first()`. -/
def queryById (store : List APIKey) (kid : String) : Option APIKey :=
  store.find? fun r => r.id == kid

/-- `db.query(APIKey).filter(APIKey.key_hash == h, APIKey.is_active == True).first()`. -/
def queryByHashActive (store : List APIKey) (h : String) : Option APIKey :=
  store.find? fun r => r.key_hash == h && r.is_active

/-- Split a character list at every occurrence of `sep`
(Python `str.split(sep)` on the character level). -/
def splitOnChar (sep : Char) : List Char → List (List Char)
  | [] => [[]]
  | c :: cs =>
    match splitOnChar sep cs with
    | [] => [[c]]
    | g :: gs => if c = sep then [] :: g :: gs else (c :: g) :: gs

/-- Rejoin groups with `sep` between them (inverse of `splitOnChar`). -/
def joinChar (sep : Char) : List (List Char) → List Char
  | [] => []
  | [g] => g
  | g :: gs => g ++ sep :: joinChar sep gs

/-- Python `value.split(":", 2)` unpacked into exactly three names, as in
`key_id, name, is_active = cached.split(":", 2)`: when the value has at
least two colons this yields the first two fields and the joined
remainder; otherwise the unpacking raises `ValueError` (modelled as
`none`), which the source catches and turns into a cache miss. -/
def pySplit2 (s : String) : Option (String × String × String) :=
  match splitOnChar ':' s.data with
  | p0 :: p1 :: p2 :: rest => some (⟨p0⟩, ⟨p1⟩, ⟨joinChar ':' (p2 :: rest)⟩)
  | _ => none

/-- The cache value written by the source:
`f"{api_key.id}:{api_key.name}:{api_key.is_active}"` (Python renders the
boolean as `"True"` / `"False"`). -/
def cacheVal (kid nm : String) (active : Bool) : String :=
  kid ++ ":" ++ nm ++ ":" ++ (if active then "True" else "False")

namespace APIKeyManager

/-- The cache fast path of `APIKeyManager.verify_api_key`
(`utils/auth.py` lines 84-93).  Returns `some result` when the source
returns from inside the cache branch (cache hit whose parsed activity
field is the string `"True"`; the result is then a store lookup by id
that may itself be `none`), and `none` when the source falls through to
the database query (no redis, no entry, empty value, unparseable value,
or an activity field other than `"True"`). -/
def cacheShortcutVal (store : List APIKey) (v : String) : Option (Option APIKey) :=
  if v = "" then none
  else
    match pySplit2 v with
    | none => none
    | some (kid, _, act) =>
      if act = "True" then some (queryById store kid) else none

/-- The full cache fast path: no redis, or no entry, means fall through. -/
def cacheShortcut (s : St) (key_hash : String) : Option (Option APIKey) :=
  match s.cache with
  | none => none
  | some c =>
    match redisGet c ("api_key:" ++ key_hash) with
    | none => none
    | some v => cacheShortcutVal s.store v

/-- `APIKeyManager.verify_api_key` (`utils/auth.py` lines 79-113).
`hashF` stands for `hashlib.sha256(key.encode()).hexdigest()`.  The
third component counts the database (KeyStore) queries performed. -/
def verify_api_key (hashF : String → String) (s : St) (key : String) :
    Option APIKey × St × Nat :=
  let key_hash := hashF key
  match cacheShortcut s key_hash with
  | some res => (res, s, 1)
  | none =>
    let res := queryByHashActive s.store key_hash
    match res, s.cache with
    | some r, some c =>
      (some r,
        { store := s.store,
          cache := some (redisSetex c ("api_key:" ++ key_hash)
            (cacheVal r.id r.name r.is_active)) },
        1)
    | _, _ => (res, s, 1)

/-- `APIKeyManager.create_api_key` (`utils/auth.py` lines 37-77).
`suffix` stands for `secrets.token_urlsafe(32)`, `idSuffix` for
`uuid.uuid4().hex[:16]`, `now` for the server-side `created_at` default.
Returns the raw key (shown once) together with the new row, and the
updated state (row inserted; cache populated when Redis is present). -/
def create_api_key (hashF : String → String) (s : St)
    (suffix idSuffix nm description : String) (now : Nat) :
    (String × APIKey) × St :=
  let key := "llm-router-" ++ suffix
  let key_hash := hashF key
  let kid := "ak_" ++ idSuffix
  let row : APIKey :=
    { id := kid, key_hash := key_hash, name := nm, description := description,
      created_at := now, last_used := none, is_active := true,
      rate_limit := 1000, usage_count := 0 }
  let cache' :=
    match s.cache with
    | none => none
    | some c => some (redisSetex c ("api_key:" ++ key_hash) (cacheVal kid nm true))
  ((key, row), { store := s.store ++ [row], cache := cache' })

/-- `APIKeyManager.increment_usage` (`utils/auth.py` lines 115-128).
The source executes `api_key.usage_count += 1` on the ORM snapshot and
commits, so the row receives the snapshot value plus one (an
application-level read-modify-write).  The source then assigns
`datetime.utcnow()` to the attribute `last_used_at`, which is *not* a
mapped column of the model (`models/api_key.py` names the column
`last_used`), so the assignment never reaches the row: the persistent
timestamp is unchanged. -/
def increment_usage (s : St) (snapshot : APIKey) : St :=
  { store :=
      s.store.map fun r =>
        if r.id == snapshot.id then { r with usage_count := snapshot.usage_count + 1 } else r,
    cache := s.cache }

end APIKeyManager

/-- The soft delete of `api/auth.py` `delete_api_key` (lines 68-92):
`current_key.is_active = False; db.commit()`. -/
def delete_api_key (s : St) (kid : String) : St :=
  { store := s.store.map fun r => if r.id == kid then { r with is_active := false } else r,
    cache := s.cache }

/-- The credential dependency `verify_api_key` of `api/dependencies.py`
(lines 97-122), from the point where the raw key string has been
extracted from the headers: call `APIKeyManager.verify_api_key`, answer
401 when no record comes back, answer 401 ("API key is disabled") when
the record is inactive, otherwise increment usage and hand the record to
the request handler. -/
def deps_verify_api_key (hashF : String → String) (s : St) (api_key_value : String) :
    Except String (APIKey × St) :=
  let res := APIKeyManager.verify_api_key hashF s api_key_value
  match res.1 with
  | none => .error "Invalid or expired API key"
  | some r =>
    if r.is_active then .ok (r, APIKeyManager.increment_usage res.2.1 r)
    else .error "API key is disabled"

/-- The JWT payload built in `TokenManager.create_token`
(`utils/tokens.py` lines 36-43).  `sub` is an `Option` because
`verify_token` guards `payload.get("sub")` against absence. -/
structure TokenPayload where
  sub : Option String
  name : String
  iat : Nat
  exp : Nat
  jti : String
  type : String
deriving Repr, DecidableEq

/-- A symbolic JWT: the payload plus the key it was signed with
(standing for the HMAC-SHA256 signature, which verifies exactly against
the signing key). -/
structure Token where
  payload : TokenPayload
  sigKey : String
deriving Repr, DecidableEq

/-- `jwt.decode(token, secret, algorithms=["HS256"])`: fails on a
signature mismatch (`InvalidTokenError`) and on expiry
(`ExpiredSignatureError`, raised when `exp < now`). -/
def jwtDecode (secret : String) (now : Nat) (t : Token) : Option TokenPayload :=
  if t.sigKey ≠ secret then none
  else if t.payload.exp < now then none
  else some t.payload

namespace TokenManager

/-- The dictionary returned by a successful `TokenManager.verify_token`
(`utils/tokens.py` lines 78-85). -/
structure TokenData where
  api_key_id : String
  api_key_name : String
  token_id : String
  issued_at : Nat
  expires_at : Nat
  api_key_record : APIKey
deriving Repr, DecidableEq

/-- `TokenManager.create_token` (`utils/tokens.py` lines 20-55):
look the key up by id, fail (`ValueError`) when it is missing or
inactive, otherwise sign the claims.  `jti` stands for
`secrets.token_hex(16)`. -/
def create_token (s : St) (secret : String) (now : Nat)
    (api_key_id : String) (expires_in : Nat) (jti : String) : Option Token :=
  match queryById s.store api_key_id with
  | none => none
  | some r =>
    if r.is_active then
      some { payload := { sub := some api_key_id, name := r.name, iat := now,
                          exp := now + expires_in, jti := jti, type := "access" },
             sigKey := secret }
    else none

/-- `TokenManager.verify_token` (`utils/tokens.py` lines 57-92): decode
(signature + expiry), require a `sub` claim, then require a store row
with that id *and* `is_active == True`.  Every failure — signature
mismatch, expiry, malformed payload, missing key, inactive key — returns
the same `none`. -/
def verify_token (s : St) (secret : String) (now : Nat) (t : Token) :
    Option TokenData :=
  match jwtDecode secret now t with
  | none => none
  | some p =>
    match p.sub with
    | none => none
    | some kid =>
      match s.store.find? (fun r => r.id == kid && r.is_active) with
      | none => none
      | some r =>
        some { api_key_id := kid, api_key_name := p.name, token_id := p.jti,
               issued_at := p.iat, expires_at := p.exp, api_key_record := r }

/-- `TokenManager.revoke_token` (`utils/tokens.py` lines 103-107): the
body is `return self.verify_token(token) is not None` — a read-only
verification; no store, cache, or token state is written. -/
def revoke_token (s : St) (secret : String) (now : Nat) (t : Token) : Bool × St :=
  ((verify_token s secret now t).isSome, s)

end TokenManager

/-- The `/auth/revoke` endpoint (`api/token_auth.py` lines 149-172):
verify-only; 401 when the token is invalid, otherwise a success message.
No state is written in either case. -/
def revoke_endpoint (s : St) (secret : String) (now : Nat) (t : Token) :
    Except String String × St :=
  let r := TokenManager.revoke_token s secret now t
  (if r.1 then .ok "Token revoked successfully" else .error "Invalid token", r.2)

/-! ## Chat completion streaming and metering (`api/chat.py`) -/

/-- A streamed chunk's per-choice delta. -/
structure Delta where
  role : Option String
  content : Option String
deriving Repr, DecidableEq

/-- A choice inside a streamed chunk. -/
structure StreamChoice where
  index : Nat
  delta : Delta
  finish_reason : Option String
deriving Repr, DecidableEq

/-- The cumulative usage figure a chunk may carry. -/
structure ChunkUsage where
  prompt_tokens : Nat
  completion_tokens : Nat
  total_tokens : Nat
deriving Repr, DecidableEq

/-- One chunk as received from the upstream provider stream. -/
structure UpChunk where
  id : String
  created : Nat
  model : String
  choices : List StreamChoice
  usage : Option ChunkUsage
deriving Repr, DecidableEq

/-- One event of the upstream async iteration: either the next chunk, or
the iteration raising at that point (which also covers a failing
`client.chat.completions.create` call when it is the first event). -/
inductive UpEvent where
  | chunk (c : UpChunk)
  | fail (msg : String)
deriving Repr, DecidableEq

/-- One item yielded to the transport by `stream_chat_completion`:
a forwarded chunk envelope (`data: {...}`), the terminal sentinel
(`data: [DONE]`), or the in-band error chunk produced by the `except`
handler (`data: {"error": msg}`). -/
inductive OutItem where
  | data (c : UpChunk)
  | done
  | errorChunk (msg : String)
deriving Repr, DecidableEq

/-- Pricing table of `calculate_cost` (`api/chat.py` lines 209-219),
prices per 1000 tokens as exact rationals. -/
def pricing : List (String × List (String × ℚ)) :=
  [("openai",
     [("gpt-4", 3/100), ("gpt-4-turbo", 1/100), ("gpt-4o", 5/1000),
      ("gpt-4o-mini", 15/10000), ("gpt-3.5-turbo", 15/10000)]),
   ("groq", [("default", 1/10000)]),
   ("gemini", [("default", 1/1000)])]

/-- `calculate_cost` (`api/chat.py` lines 199-224):
`provider_pricing = pricing.get(provider, {})`;
`cost_per_1k = provider_pricing.get(model, provider_pricing.get("default", 0.001))`;
`(total_tokens / 1000) * cost_per_1k`. -/
def calculate_cost (provider model : String) (total_tokens : Nat) : ℚ :=
  let provider_pricing := (pricing.lookup provider).getD []
  let cost_per_1k :=
    (provider_pricing.lookup model).getD ((provider_pricing.lookup "default").getD (1/1000))
  ((total_tokens : ℚ) / 1000) * cost_per_1k

/-- Modelled from the spec (§4.6): the per-1K rate obtained by the
lookup order the spec states — "exact model match under the request's
provider; else that provider's `default`; else global default". -/
def specRate (provider model : String) : ℚ :=
  match (pricing.lookup provider).bind (fun t => t.lookup model) with
  | some r => r
  | none =>
    match (pricing.lookup provider).bind (fun t => t.lookup "default") with
    | some d => d
    | none => 1/1000

/-- A `usage_logs` row (`models/usage_log.py` / `log_usage` in
`api/chat.py` lines 165-196). -/
structure UsageLog where
  id : String
  api_key_id : String
  provider : String
  model : String
  endpoint : String
  tokens_used : Nat
  prompt_tokens : Nat
  completion_tokens : Nat
  cost : ℚ
deriving Repr, DecidableEq

/-- The usage row `log_usage` builds from the dictionary that
`stream_chat_completion` passes it: `total_tokens := total`,
`prompt_tokens := 0`, `completion_tokens := total` (`api/chat.py`
lines 147-158 and 165-196). -/
def stream_usage_log (logId api_key_id provider model : String) (total : Nat) : UsageLog :=
  { id := logId, api_key_id := api_key_id, provider := provider, model := model,
    endpoint := "/v1/chat/completions", tokens_used := total,
    prompt_tokens := 0, completion_tokens := total,
    cost := calculate_cost provider model total }

/-- The loop body of `stream_chat_completion` (`api/chat.py` lines
113-162), as a function of the remaining upstream events and the running
`total_tokens` accumulator.  Returns the yielded items, the final
accumulator, and whether the generator completed normally (reached the
`data: [DONE]` sentinel) rather than through the `except` handler.
A chunk with an empty `choices` list is neither forwarded nor consulted
for usage (both happen inside `if chunk.choices:`); a chunk carrying a
usage object overwrites the accumulator with its `total_tokens`. -/
def streamGo : List UpEvent → Nat → List OutItem × Nat × Bool
  | [], total => ([.done], total, true)
  | .chunk c :: rest, total =>
    if c.choices.isEmpty then streamGo rest total
    else
      let total' := match c.usage with | some u => u.total_tokens | none => total
      let r := streamGo rest total'
      (.data c :: r.1, r.2)
  | .fail m :: _, total => ([.errorChunk m], total, false)

/-- The items `stream_chat_completion` yields to the transport. -/
def stream_chat_completion (events : List UpEvent) : List OutItem :=
  (streamGo events 0).1

/-- The usage rows written for one stream: exactly one (via `log_usage`
with `prompt_tokens = 0`, `completion_tokens = total`) when the
generator completed normally and the accumulator is positive
(`if total_tokens > 0:`), and none otherwise (`api/chat.py` lines
143-158; the `except` handler bypasses the logging). -/
def stream_logs (logId api_key_id provider model : String) (events : List UpEvent) :
    List UsageLog :=
  let r := streamGo events 0
  if r.2.2 = true ∧ 0 < r.2.1 then [stream_usage_log logId api_key_id provider model r.2.1]
  else []

/-- The chunks of the upstream prefix actually iterated: everything
before the first failure. -/
def upChunks : List UpEvent → List UpChunk
  | [] => []
  | .chunk c :: rest => c :: upChunks rest
  | .fail _ :: _ => []

/-- The message of the first upstream failure, when the iteration fails. -/
def firstFail : List UpEvent → Option String
  | [] => none
  | .chunk _ :: rest => firstFail rest
  | .fail m :: _ => some m

/-- The forwarded-chunk projection of the yielded items. -/
def forwarded (out : List OutItem) : List UpChunk :=
  out.filterMap fun i => match i with | .data c => some c | _ => none

/-- Folding the usage-capture assignment of the streaming loop over a
chunk list: a chunk with a usage object overwrites the accumulator. -/
def captureFold (init : Nat) (l : List UpChunk) : Nat :=
  l.foldl (fun t c => match c.usage with | some u => u.total_tokens | none => t) init

/-- The last element of a yielded item list. -/
def lastItem : List OutItem → Option OutItem
  | [] => none
  | [a] => some a
  | _ :: b :: rest => lastItem (b :: rest)

/-! ## Concrete instances used by witnesses and counterexamples -/

/-- An injective stand-in for SHA-256 in closed witnesses (the identity:
the "hash" of a secret is the secret itself). -/
def idHash : String → String := fun s => s

/-- A deactivated (revoked) key row. -/
def revokedRow : APIKey :=
  { id := "ak_1", key_hash := "h", name := "alice", description := "",
    created_at := 0, last_used := none, is_active := false,
    rate_limit := 1000, usage_count := 0 }

/-- A state whose only key has been revoked. -/
def revokedSt : St := { store := [revokedRow], cache := none }

/-- A token correctly signed with `"sk"`, expiring at time 100,
referencing `ak_1`. -/
def goodTok : Token :=
  { payload := { sub := some "ak_1", name := "alice", iat := 0, exp := 100,
                 jti := "j1", type := "access" },
    sigKey := "sk" }

/-- The same claims signed with the wrong key. -/
def badSigTok : Token :=
  { payload := goodTok.payload, sigKey := "zz" }

/-- An active key row whose stored hash is its raw secret under `idHash`. -/
def activeRow : APIKey :=
  { id := "ak_1", key_hash := "llm-router-s", name := "alice", description := "",
    created_at := 0, last_used := none, is_active := true,
    rate_limit := 1000, usage_count := 0 }

/-- A state holding just `activeRow`, without Redis. -/
def activeSt : St := { store := [activeRow], cache := none }

/-- A state whose Redis cache records `is_active=False` for
`activeRow`'s hash while the store row is active. -/
def staleFalseSt : St :=
  { store := [activeRow],
    cache := some [("api_key:" ++ "llm-router-s", "ak_1:alice:False")] }

/-- A forwarded-shape chunk with one choice and no usage. -/
def exChunk : UpChunk :=
  { id := "c", created := 0, model := "m",
    choices := [{ index := 0, delta := { role := none, content := some "x" },
                  finish_reason := none }],
    usage := none }

/-- A chunk with one choice carrying a zero usage figure. -/
def zeroUsageChunk : UpChunk :=
  { exChunk with usage := some { prompt_tokens := 0, completion_tokens := 0, total_tokens := 0 } }

/-! ## Supporting lemmas -/

theorem cacheShortcut_of_cache_some (s : St) (c : Cache) (kh : String)
    (h : s.cache = some c) :
    APIKeyManager.cacheShortcut s kh =
      match redisGet c ("api_key:" ++ kh) with
      | none => none
      | some v => APIKeyManager.cacheShortcutVal s.store v := by
  unfold APIKeyManager.cacheShortcut
  rw [h]

theorem jwtDecode_some {secret : String} {now : Nat} {t : Token} {p : TokenPayload}
    (h : jwtDecode secret now t = some p) : p = t.payload := by
  unfold jwtDecode at h
  split at h
  · exact absurd h (by simp)
  · split at h
    · exact absurd h (by simp)
    · exact (Option.some.injEq .. ▸ h).symm

theorem find?_delete_none (store : List APIKey) (kid : String) :
    ((delete_api_key { store := store, cache := none } kid).store.find?
      fun r => r.id == kid && r.is_active) = none := by
  rw [List.find?_eq_none]
  intro r hr
  simp only [delete_api_key, List.mem_map] at hr
  obtain ⟨a, _, rfl⟩ := hr
  by_cases h : a.id = kid
  · simp [h]
  · simp [h]

theorem delete_api_key_store (s : St) (kid : String) :
    (delete_api_key s kid).store =
      (delete_api_key { store := s.store, cache := none } kid).store := rfl

/-! ## Claims -/

/-- **C7.** For every provider, model, and usage figure, the cost
computed by `calculate_cost` equals `total_tokens / 1000` times the rate
obtained by the spec's lookup order (exact model entry under the
request's provider; else that provider's `"default"` entry; else the
global default rate `0.001`), here expressed through `specRate`, which
is written from the spec's words. -/
theorem calculate_cost_matches_lookup_order (p m : String) (t : Nat) :
    calculate_cost p m t = ((t : ℚ) / 1000) * specRate p m := by
  unfold calculate_cost specRate
  cases hp : pricing.lookup p with
  | none => simp [hp, List.lookup]
  | some tbl =>
    cases hm : tbl.lookup m with
    | none => cases hd : tbl.lookup "default" <;> simp [hp, hm, hd]
    | some r => simp [hp, hm]

/-- **C4.** Token revocation changes no stored state: both
`TokenManager.revoke_token` and the `/auth/revoke` endpoint return the
state unchanged, and every token that verified before the call verifies
identically afterwards (in particular a previously valid token remains
valid until its natural expiry). -/
theorem revoke_token_changes_nothing :
    ∀ (s : St) (secret : String) (now : Nat) (t : Token),
      (TokenManager.revoke_token s secret now t).2 = s ∧
      (revoke_endpoint s secret now t).2 = s ∧
      ∀ (t2 : Token) (now2 : Nat),
        TokenManager.verify_token (TokenManager.revoke_token s secret now t).2
            secret now2 t2 =
          TokenManager.verify_token s secret now2 t2 :=
  fun _ _ _ _ => ⟨rfl, rfl, fun _ _ => rfl⟩

/-- **C8** (code bug witness). `increment_usage` increments the
persistent `usage_count` but leaves the persistent timestamp column
(`last_used`) of every row unchanged, because the source assigns the
time of use to `last_used_at`, which is not a mapped column of the
model.  Evaluated below at a concrete verified use: the counter becomes
1 while `last_used` stays `none`. -/
theorem increment_usage_never_updates_last_used :
    (∀ (s : St) (snap : APIKey),
        (APIKeyManager.increment_usage s snap).store.map (fun r => r.last_used) =
          s.store.map (fun r => r.last_used)) ∧
    (APIKeyManager.increment_usage activeSt activeRow).store =
      [{ activeRow with usage_count := 1 }] ∧
    ({ activeRow with usage_count := 1 } : APIKey).last_used = none := by
  refine ⟨fun s snap => ?_, by decide, rfl⟩
  simp only [APIKeyManager.increment_usage, List.map_map]
  apply List.map_congr_left
  intro a _
  simp only [Function.comp]
  split <;> rfl

/-- **C1** (counterexample). A bearer token whose signature verifies and
whose expiry has not passed, but whose referenced key is inactive, fails
verification with the very same undistinguished result (`None`) as a
token with a mismatched signature: `verify_token` has no `KeyRevoked`
classification distinct from the generic failure. -/
theorem keyRevoked_not_distinct_counterexample :
    goodTok.sigKey = "sk" ∧ ¬ goodTok.payload.exp < 10 ∧
    TokenManager.verify_token revokedSt "sk" 10 goodTok = none ∧
    TokenManager.verify_token revokedSt "sk" 10 badSigTok = none ∧
    TokenManager.verify_token revokedSt "sk" 10 goodTok =
      TokenManager.verify_token revokedSt "sk" 10 badSigTok := by
  refine ⟨rfl, by decide, by decide, by decide, by decide⟩

/-- **C1** (amended). For every bearer token whose signature verifies
and whose expiry has not passed, if the referenced API key is missing or
has `is_active` false then `TokenManager` verification fails — but with
the same undistinguished `None` as every other failure, not with a
distinct `KeyRevoked` classification; and after a key is revoked
(`delete_api_key`), every outstanding token for that key fails
verification on its next check. -/
theorem verify_token_inactive_fails_undistinguished :
    (∀ (s : St) (secret : String) (now : Nat) (t : Token) (kid : String),
        t.sigKey = secret → ¬ t.payload.exp < now → t.payload.sub = some kid →
        (s.store.find? fun r => r.id == kid && r.is_active) = none →
        TokenManager.verify_token s secret now t = none ∧
        ∀ t2 : Token, TokenManager.verify_token s secret now t2 = none →
          TokenManager.verify_token s secret now t =
            TokenManager.verify_token s secret now t2) ∧
    (∀ (s : St) (secret : String) (now : Nat) (t : Token) (kid : String),
        t.payload.sub = some kid →
        TokenManager.verify_token (delete_api_key s kid) secret now t = none) := by
  constructor
  · intro s secret now t kid hsig hexp hsub hfind
    have hmain : TokenManager.verify_token s secret now t = none := by
      unfold TokenManager.verify_token jwtDecode
      simp [hsig, hexp, hsub, hfind]
    exact ⟨hmain, fun t2 h2 => hmain.trans h2.symm⟩
  · intro s secret now t kid hsub
    have hfind : ((delete_api_key s kid).store.find? fun r => r.id == kid && r.is_active)
        = none := by
      rw [delete_api_key_store]
      exact find?_delete_none s.store kid
    by_cases hsig : t.sigKey = secret
    · by_cases hexp : t.payload.exp < now
      · unfold TokenManager.verify_token jwtDecode
        simp [hsig, hexp]
      · unfold TokenManager.verify_token jwtDecode
        simp [hsig, hexp, hsub, hfind]
    · unfold TokenManager.verify_token jwtDecode
      simp [hsig]

/-- Witness for `verify_token_inactive_fails_undistinguished`: evaluated
on a concrete revoked key, and on a concrete key revoked through
`delete_api_key` with an outstanding token. -/
theorem verify_token_inactive_witness :
    TokenManager.verify_token revokedSt "sk" 10 goodTok = none ∧
    TokenManager.verify_token (delete_api_key activeSt "ak_1") "sk" 10 goodTok = none :=
  ⟨(verify_token_inactive_fails_undistinguished.1 revokedSt "sk" 10 goodTok "ak_1"
      rfl (by decide) rfl (by decide)).1,
   verify_token_inactive_fails_undistinguished.2 activeSt "sk" 10 goodTok "ak_1" rfl⟩

/-- **C2** (counterexample). In the state `staleFalseSt` the cache holds
an entry for the presented secret's hash recording `is_active=False`,
yet `verify_api_key` does *not* reject: it falls through to a KeyStore
query (one store lookup is performed) and, the store row being active,
returns the record. -/
theorem cache_false_not_immediate_reject_counterexample :
    redisGet [("api_key:" ++ "llm-router-s", "ak_1:alice:False")]
        ("api_key:" ++ idHash "llm-router-s") = some "ak_1:alice:False" ∧
    pySplit2 "ak_1:alice:False" = some ("ak_1", "alice", "False") ∧
    ¬ (APIKeyManager.verify_api_key idHash staleFalseSt "llm-router-s").1 = none ∧
    (APIKeyManager.verify_api_key idHash staleFalseSt "llm-router-s").1 = some activeRow ∧
    (APIKeyManager.verify_api_key idHash staleFalseSt "llm-router-s").2.2 = 1 := by
  refine ⟨by decide, by decide, by decide, by decide, by decide⟩

/-- **C2** (amended). A cache entry recording `is_active=False` for the
presented secret's hash does not short-circuit verification: the cache
branch is abandoned and `verify_api_key` performs exactly one KeyStore
lookup — the query by hash filtered on `is_active=true` — whose result
is the verification outcome. -/
theorem cache_inactive_falls_through_to_store (hashF : String → String) (s : St)
    (key : String) (c : Cache) (v kid nm : String)
    (hc : s.cache = some c)
    (hget : redisGet c ("api_key:" ++ hashF key) = some v)
    (hne : ¬ v = "")
    (hsplit : pySplit2 v = some (kid, nm, "False")) :
    (APIKeyManager.verify_api_key hashF s key).1 = queryByHashActive s.store (hashF key) ∧
    (APIKeyManager.verify_api_key hashF s key).2.2 = 1 := by
  have hshort : APIKeyManager.cacheShortcut s (hashF key) = none := by
    rw [cacheShortcut_of_cache_some s c (hashF key) hc, hget]
    show APIKeyManager.cacheShortcutVal s.store v = none
    unfold APIKeyManager.cacheShortcutVal
    rw [if_neg hne, hsplit]
    show (if ("False" : String) = "True" then some (queryById s.store kid) else none) = none
    rw [if_neg (by decide)]
  simp only [APIKeyManager.verify_api_key, hshort]
  rw [hc]
  cases hq : queryByHashActive s.store (hashF key) <;> simp [hq]

/-- Witness for `cache_inactive_falls_through_to_store`, evaluated on
the concrete stale-cache state. -/
theorem cache_inactive_falls_through_witness :
    (APIKeyManager.verify_api_key idHash staleFalseSt "llm-router-s").1 =
      queryByHashActive staleFalseSt.store (idHash "llm-router-s") ∧
    (APIKeyManager.verify_api_key idHash staleFalseSt "llm-router-s").2.2 = 1 :=
  cache_inactive_falls_through_to_store idHash staleFalseSt "llm-router-s"
    [("api_key:" ++ "llm-router-s", "ak_1:alice:False")] "ak_1:alice:False"
    "ak_1" "alice" rfl (by decide) (by decide) (by decide)

/-- **C9.** Every record the HTTP credential dependency hands to a
request handler has `is_active = true`: the dependency re-checks the
flag on whatever record the key manager returns (the manager's cache-hit
path fetches by id without filtering on `is_active`, so the manager can
return a revoked record; the dependency rejects it with 401). -/
theorem deps_returns_active_only (hashF : String → String) (s : St) (k : String)
    (r : APIKey) (s' : St)
    (h : deps_verify_api_key hashF s k = .ok (r, s')) : r.is_active = true := by
  simp only [deps_verify_api_key] at h
  split at h
  · simp at h
  · rename_i r0 heq
    split at h
    · rename_i hact
      simp only [Except.ok.injEq, Prod.mk.injEq] at h
      rw [← h.1]
      exact hact
    · simp at h

/-- Witness for `deps_returns_active_only`: a concrete state on which
the dependency succeeds, so the hypothesis is discharged by evaluation. -/
theorem deps_returns_active_only_witness :
    deps_verify_api_key idHash activeSt "llm-router-s" =
      .ok (activeRow, { store := [{ activeRow with usage_count := 1 }], cache := none }) ∧
    activeRow.is_active = true :=
  ⟨rfl,
   deps_returns_active_only idHash activeSt "llm-router-s" activeRow
     { store := [{ activeRow with usage_count := 1 }], cache := none } rfl⟩

/-- One serialized round of the dependency's verify-then-count sequence:
verify the key and, on success, run `increment_usage` on the snapshot
just read.  Used to state the serial (non-overlapping) behaviour of the
usage counter. -/
def serial_verify_increment (hashF : String → String) (key : String) (s : St) : St :=
  let v := APIKeyManager.verify_api_key hashF s key
  match v.1 with
  | some r => APIKeyManager.increment_usage v.2.1 r
  | none => v.2.1

/-- `n` serialized verify-then-count rounds. -/
def serialRuns (hashF : String → String) (key : String) : Nat → St → St
  | 0, s => s
  | n + 1, s => serialRuns hashF key n (serial_verify_increment hashF key s)

/-- **C5** (counterexample).  Two concurrent verifications of the same
active key both succeed from the same state, each session holding the
same snapshot (`usage_count = 0`); `increment_usage` writes the
snapshot's counter plus one at commit (`api_key.usage_count += 1` is an
application-level read-modify-write, not a store-guarded update), so
after both commits the counter is 1, not N = 2. -/
theorem concurrent_increment_lost_update_counterexample :
    (APIKeyManager.verify_api_key idHash activeSt "llm-router-s").1 = some activeRow ∧
    (APIKeyManager.verify_api_key idHash activeSt "llm-router-s").1 = some activeRow ∧
    (APIKeyManager.increment_usage
        (APIKeyManager.increment_usage activeSt activeRow) activeRow).store =
      [{ activeRow with usage_count := 1 }] ∧
    ({ activeRow with usage_count := 1 } : APIKey).usage_count ≠ 2 := by
  refine ⟨by decide, by decide, by decide, by decide⟩

/-- **C5** (amended). When the `n` verifications of the same active key
are serialized (each round reads a fresh snapshot after the previous
commit), each succeeds and the key's `usage_count` ends at exactly its
initial value plus `n`; atomicity under interleaving is *not* provided,
as the counterexample shows, because the increment is an
application-level read-modify-write. -/
theorem serial_verifications_count_exact (hashF : String → String) (key : String)
    (r : APIKey) (n : Nat) (hact : r.is_active = true) (hh : r.key_hash = hashF key) :
    serialRuns hashF key n { store := [r], cache := none } =
      { store := [{ r with usage_count := r.usage_count + n }], cache := none } := by
  induction n generalizing r with
  | zero =>
    simp only [serialRuns]
    cases r
    simp
  | succ n ih =>
    have hstep : serial_verify_increment hashF key { store := [r], cache := none } =
        { store := [{ r with usage_count := r.usage_count + 1 }], cache := none } := by
      unfold serial_verify_increment APIKeyManager.verify_api_key
        APIKeyManager.cacheShortcut
      simp [queryByHashActive, List.find?, hh, hact, APIKeyManager.increment_usage]
    have h2 := ih { r with usage_count := r.usage_count + 1 } hact hh
    show serialRuns hashF key n
        (serial_verify_increment hashF key { store := [r], cache := none }) = _
    rw [hstep, h2]
    cases r
    simp
    omega

/-- Witness for `serial_verifications_count_exact`: three serialized
verified uses of the concrete active key leave its counter at 3. -/
theorem serial_verifications_count_exact_witness :
    serialRuns idHash "llm-router-s" 3 { store := [activeRow], cache := none } =
      { store := [{ activeRow with usage_count := 3 }], cache := none } := by
  have h := serial_verifications_count_exact idHash "llm-router-s" activeRow 3
    (by decide) (by decide)
  simpa using h

/-! ## Streaming lemmas -/

theorem streamGo_ne_nil (ev : List UpEvent) (t : Nat) : (streamGo ev t).1 ≠ [] := by
  induction ev generalizing t with
  | nil => simp [streamGo]
  | cons e rest ih =>
    cases e with
    | chunk c =>
      by_cases h : c.choices.isEmpty
      · simpa [streamGo, h] using ih t
      · simp [streamGo, h]
    | fail m => simp [streamGo]

theorem lastItem_cons_of_ne_nil (a : OutItem) (l : List OutItem) (h : l ≠ []) :
    lastItem (a :: l) = lastItem l := by
  cases l with
  | nil => exact absurd rfl h
  | cons b bs => rfl

theorem streamGo_lastItem_fail (ev : List UpEvent) (t : Nat) (m : String)
    (h : firstFail ev = some m) :
    lastItem (streamGo ev t).1 = some (.errorChunk m) := by
  induction ev generalizing t with
  | nil => simp [firstFail] at h
  | cons e rest ih =>
    cases e with
    | chunk c =>
      have h' : firstFail rest = some m := h
      by_cases hc : c.choices.isEmpty
      · simpa [streamGo, hc] using ih t h'
      · simp only [streamGo, hc, Bool.false_eq_true, if_false]
        rw [lastItem_cons_of_ne_nil _ _ (streamGo_ne_nil rest _)]
        exact ih _ h'
    | fail m2 =>
      have hm : m2 = m := by simpa [firstFail] using h
      subst hm
      simp [streamGo, lastItem]

theorem streamGo_lastItem_done (ev : List UpEvent) (t : Nat)
    (h : firstFail ev = none) :
    lastItem (streamGo ev t).1 = some .done := by
  induction ev generalizing t with
  | nil => simp [streamGo, lastItem]
  | cons e rest ih =>
    cases e with
    | chunk c =>
      have h' : firstFail rest = none := h
      by_cases hc : c.choices.isEmpty
      · simpa [streamGo, hc] using ih t h'
      · simp only [streamGo, hc, Bool.false_eq_true, if_false]
        rw [lastItem_cons_of_ne_nil _ _ (streamGo_ne_nil rest _)]
        exact ih _ h'
    | fail m2 => simp [firstFail] at h

theorem streamGo_forwarded (ev : List UpEvent) (t : Nat) :
    forwarded (streamGo ev t).1 =
      (upChunks ev).filter (fun c => !c.choices.isEmpty) := by
  induction ev generalizing t with
  | nil => simp [streamGo, forwarded, upChunks]
  | cons e rest ih =>
    cases e with
    | chunk c =>
      by_cases hc : c.choices.isEmpty
      · simpa [streamGo, upChunks, hc] using ih t
      · simp only [streamGo, upChunks, hc, Bool.false_eq_true, if_false,
          List.filter_cons, Bool.not_false, if_true]
        rw [show forwarded (OutItem.data c :: (streamGo rest
            (match c.usage with | some u => u.total_tokens | none => t)).1) =
          c :: forwarded (streamGo rest
            (match c.usage with | some u => u.total_tokens | none => t)).1 from rfl]
        rw [ih]
    | fail m => simp [streamGo, forwarded, upChunks]

theorem streamGo_total (ev : List UpEvent) (t : Nat) :
    (streamGo ev t).2.1 =
      captureFold t ((upChunks ev).filter fun c => !c.choices.isEmpty) := by
  induction ev generalizing t with
  | nil => simp [streamGo, captureFold, upChunks]
  | cons e rest ih =>
    cases e with
    | chunk c =>
      by_cases hc : c.choices.isEmpty
      · simpa [streamGo, upChunks, hc] using ih t
      · simp only [streamGo, upChunks, hc, Bool.false_eq_true, if_false,
          List.filter_cons, Bool.not_false, if_true]
        rw [show captureFold t (c :: (upChunks rest).filter fun c => !c.choices.isEmpty) =
          captureFold (match c.usage with | some u => u.total_tokens | none => t)
            ((upChunks rest).filter fun c => !c.choices.isEmpty) from rfl]
        exact ih _
    | fail m => simp [streamGo, captureFold, upChunks]

theorem captureFold_zero (l : List UpChunk)
    (h : ∀ c ∈ l, ∀ u, c.usage = some u → u.total_tokens = 0) :
    captureFold 0 l = 0 := by
  induction l with
  | nil => rfl
  | cons c cs ih =>
    have h0 : (match c.usage with | some u => u.total_tokens | none => (0 : Nat)) = 0 := by
      cases hu : c.usage with
      | none => rfl
      | some u => exact h c (by simp) u hu
    rw [show captureFold 0 (c :: cs) =
      captureFold (match c.usage with | some u => u.total_tokens | none => (0 : Nat)) cs
      from rfl, h0]
    exact ih fun c2 hc2 => h c2 (List.mem_cons_of_mem _ hc2)

/-! ## String-splitting lemmas for the cache round-trip -/

theorem splitOnChar_ne_nil (sep : Char) (l : List Char) : splitOnChar sep l ≠ [] := by
  induction l with
  | nil => simp [splitOnChar]
  | cons c cs ih =>
    simp only [splitOnChar]
    cases h : splitOnChar sep cs with
    | nil => simp
    | cons g gs =>
      show ¬ (if c = sep then [] :: g :: gs else (c :: g) :: gs) = []
      split <;> simp

theorem splitOnChar_of_not_mem (sep : Char) (l : List Char) (h : sep ∉ l) :
    splitOnChar sep l = [l] := by
  induction l with
  | nil => rfl
  | cons c cs ih =>
    have hc : ¬ c = sep := fun e => h (e ▸ List.mem_cons_self c cs)
    have hcs : sep ∉ cs := fun e => h (List.mem_cons_of_mem _ e)
    simp only [splitOnChar, ih hcs]
    show (if c = sep then [[], cs] else [c :: cs]) = [c :: cs]
    rw [if_neg hc]

theorem splitOnChar_append (sep : Char) (a b : List Char) (h : sep ∉ a) :
    splitOnChar sep (a ++ sep :: b) = a :: splitOnChar sep b := by
  induction a with
  | nil =>
    cases hb : splitOnChar sep b with
    | nil => exact absurd hb (splitOnChar_ne_nil sep b)
    | cons g gs =>
      simp only [List.nil_append, splitOnChar, hb]
      simp
  | cons c cs ih =>
    have hc : ¬ c = sep := fun e => h (e ▸ List.mem_cons_self c cs)
    have hcs : sep ∉ cs := fun e => h (List.mem_cons_of_mem _ e)
    show splitOnChar sep (c :: (cs ++ sep :: b)) = (c :: cs) :: splitOnChar sep b
    simp only [splitOnChar, ih hcs]
    show (if c = sep then [] :: cs :: splitOnChar sep b
          else (c :: cs) :: splitOnChar sep b) = (c :: cs) :: splitOnChar sep b
    rw [if_neg hc]

theorem pySplit2_encode (a b c : String) (ha : ':' ∉ a.data) (hb : ':' ∉ b.data)
    (hc : ':' ∉ c.data) :
    pySplit2 (a ++ ":" ++ b ++ ":" ++ c) = some (a, b, c) := by
  have hdata : (a ++ ":" ++ b ++ ":" ++ c).data =
      a.data ++ ':' :: (b.data ++ ':' :: c.data) := by
    simp only [String.data_append, List.append_assoc]
    rfl
  unfold pySplit2
  rw [hdata, splitOnChar_append _ _ _ ha, splitOnChar_append _ _ _ hb,
    splitOnChar_of_not_mem _ _ hc]
  show some ((⟨a.data⟩ : String), (⟨b.data⟩ : String),
    (⟨joinChar ':' [c.data]⟩ : String)) = some (a, b, c)
  rfl

theorem string_append_left_cancel {a b c : String} (h : a ++ b = a ++ c) : b = c := by
  apply String.ext
  have hd : a.data ++ b.data = a.data ++ c.data := by
    rw [← String.data_append, ← String.data_append, h]
  exact List.append_cancel_left hd

theorem ne_empty_of_pySplit2_some {v : String} {x : String × String × String}
    (h : pySplit2 v = some x) : ¬ v = "" := by
  intro he
  rw [he] at h
  have hnone : pySplit2 "" = none := rfl
  rw [hnone] at h
  exact Option.noConfusion h

theorem redisGet_setex_self (c : Cache) (k v : String) :
    redisGet (redisSetex c k v) k = some v := by
  simp [redisGet, redisSetex, List.find?]

theorem redisGet_setex_ne (c : Cache) (k v k2 : String) (h : ¬ k2 = k)
    (h0 : redisGet c k2 = none) : redisGet (redisSetex c k v) k2 = none := by
  have hfind : (c.find? fun e => e.1 == k2) = none := by
    simp only [redisGet, Option.map_eq_none'] at h0
    exact h0
  have hall := List.find?_eq_none.mp hfind
  have hka : ¬ ((fun (e : String × String) => e.1 == k2) (k, v)) = true := by
    simp only [beq_iff_eq]
    exact fun e => h e.symm
  simp only [redisGet, redisSetex, Option.map_eq_none']
  refine List.find?_eq_none.mpr fun e he => ?_
  rcases List.mem_cons.mp he with he1 | he2
  · subst he1; exact hka
  · exact hall e (List.mem_of_mem_filter he2)

/-! ## Store-query lemmas -/

theorem find?_hash_none (store : List APIKey) (h : String)
    (hh : ∀ r ∈ store, ¬ r.key_hash = h) :
    (store.find? fun r => r.key_hash == h && r.is_active) = none :=
  List.find?_eq_none.mpr fun r hr => by simp [hh r hr]

theorem find?_id_none (store : List APIKey) (kid : String)
    (hid : ∀ r ∈ store, ¬ r.id = kid) :
    (store.find? fun r => r.id == kid) = none :=
  List.find?_eq_none.mpr fun r hr => by simp [hid r hr]

theorem queryByHashActive_none (store : List APIKey) (h : String)
    (hh : ∀ r ∈ store, ¬ r.key_hash = h) : queryByHashActive store h = none :=
  find?_hash_none store h hh

theorem queryByHashActive_append_single (store : List APIKey) (row : APIKey)
    (h : String) (hnone : ∀ r ∈ store, ¬ r.key_hash = h)
    (hrow : row.key_hash = h) (hact : row.is_active = true) :
    queryByHashActive (store ++ [row]) h = some row := by
  unfold queryByHashActive
  rw [List.find?_append, find?_hash_none store h hnone]
  simp [List.find?, hrow, hact]

theorem queryByHashActive_append_single_none (store : List APIKey) (row : APIKey)
    (h : String) (hnone : ∀ r ∈ store, ¬ r.key_hash = h)
    (hrow : ¬ row.key_hash = h) :
    queryByHashActive (store ++ [row]) h = none := by
  unfold queryByHashActive
  rw [List.find?_append, find?_hash_none store h hnone]
  have hb : (row.key_hash == h) = false := beq_eq_false_iff_ne.mpr hrow
  simp [List.find?, hb]

theorem queryById_append_single (store : List APIKey) (row : APIKey)
    (kid : String) (hnone : ∀ r ∈ store, ¬ r.id = kid) (hrow : row.id = kid) :
    queryById (store ++ [row]) kid = some row := by
  unfold queryById
  rw [List.find?_append, find?_id_none store kid hnone]
  simp [List.find?, hrow]

/-- **C3.** For every valid creation (fresh id suffix and a secret hash
colliding with no stored row — guaranteed by hash injectivity plus the
freshness hypotheses), verifying the raw secret returned by `create`,
with no intervening mutation, succeeds and returns exactly the created
record (same id); and verifying any secret whose bytes differ from the
created raw secret — and which matches no previously stored key — fails.
The colon-freedom hypotheses reflect `uuid4().hex` ids and colon-free
names, under which the cache round-trip `"id:name:True".split(":", 2)`
is faithful. -/
theorem create_then_verify_roundtrip (hashF : String → String)
    (hinj : Function.Injective hashF) (s : St)
    (sfx idSfx nm desc : String) (now : Nat)
    (hidfree : ':' ∉ idSfx.data) (hnmfree : ':' ∉ nm.data)
    (hid : ∀ r ∈ s.store, ¬ r.id = "ak_" ++ idSfx)
    (hhash : ∀ r ∈ s.store, ¬ r.key_hash = hashF ("llm-router-" ++ sfx)) :
    ((APIKeyManager.verify_api_key hashF
        (APIKeyManager.create_api_key hashF s sfx idSfx nm desc now).2
        (APIKeyManager.create_api_key hashF s sfx idSfx nm desc now).1.1).1 =
      some (APIKeyManager.create_api_key hashF s sfx idSfx nm desc now).1.2 ∧
     (APIKeyManager.create_api_key hashF s sfx idSfx nm desc now).1.2.id =
      "ak_" ++ idSfx) ∧
    (∀ other, ¬ other = "llm-router-" ++ sfx →
      (∀ r ∈ s.store, ¬ r.key_hash = hashF other) →
      (∀ c, s.cache = some c → redisGet c ("api_key:" ++ hashF other) = none) →
      (APIKeyManager.verify_api_key hashF
        (APIKeyManager.create_api_key hashF s sfx idSfx nm desc now).2 other).1 =
        none) := by
  obtain ⟨store, cache⟩ := s
  have hkidfree : ':' ∉ ("ak_" ++ idSfx).data := by
    rw [String.data_append]
    intro hmem
    rcases List.mem_append.mp hmem with h1 | h2
    · exact absurd h1 (by decide)
    · exact hidfree h2
  cases cache with
  | none =>
    refine ⟨⟨?_, rfl⟩, ?_⟩
    · have hq : queryByHashActive
          (store ++ [(APIKeyManager.create_api_key hashF ⟨store, none⟩
            sfx idSfx nm desc now).1.2])
          (hashF ("llm-router-" ++ sfx)) =
          some (APIKeyManager.create_api_key hashF ⟨store, none⟩
            sfx idSfx nm desc now).1.2 :=
        queryByHashActive_append_single store _ _ hhash rfl rfl
      simp only [APIKeyManager.verify_api_key, APIKeyManager.create_api_key,
        APIKeyManager.cacheShortcut] at hq ⊢
      simp [hq]
    · intro other hne2 hsh hcache2
      have hkh : ¬ hashF other = hashF ("llm-router-" ++ sfx) :=
        fun e => hne2 (hinj e)
      have hq : queryByHashActive
          (store ++ [(APIKeyManager.create_api_key hashF ⟨store, none⟩
            sfx idSfx nm desc now).1.2]) (hashF other) = none :=
        queryByHashActive_append_single_none store _ _ hsh (fun e => hkh e.symm)
      simp only [APIKeyManager.verify_api_key, APIKeyManager.create_api_key,
        APIKeyManager.cacheShortcut] at hq ⊢
      simp [hq]
  | some c =>
    have hval : pySplit2 (cacheVal ("ak_" ++ idSfx) nm true) =
        some ("ak_" ++ idSfx, nm, "True") :=
      pySplit2_encode _ _ _ hkidfree hnmfree (by decide)
    have hvne := ne_empty_of_pySplit2_some hval
    refine ⟨⟨?_, rfl⟩, ?_⟩
    · have hqid : queryById
          (store ++ [(APIKeyManager.create_api_key hashF ⟨store, some c⟩
            sfx idSfx nm desc now).1.2]) ("ak_" ++ idSfx) =
          some (APIKeyManager.create_api_key hashF ⟨store, some c⟩
            sfx idSfx nm desc now).1.2 :=
        queryById_append_single store _ _ hid rfl
      simp only [APIKeyManager.verify_api_key, APIKeyManager.create_api_key,
        APIKeyManager.cacheShortcut, APIKeyManager.cacheShortcutVal] at hqid ⊢
      rw [redisGet_setex_self]
      simp [if_neg hvne, hval, hqid]
    · intro other hne2 hsh hcache2
      have hkh : ¬ hashF other = hashF ("llm-router-" ++ sfx) :=
        fun e => hne2 (hinj e)
      have hgc : redisGet c ("api_key:" ++ hashF other) = none := hcache2 c rfl
      have hKne : ¬ ("api_key:" ++ hashF other) =
          ("api_key:" ++ hashF ("llm-router-" ++ sfx)) :=
        fun e => hkh (string_append_left_cancel e)
      have hget : redisGet
          (redisSetex c ("api_key:" ++ hashF ("llm-router-" ++ sfx))
            (cacheVal ("ak_" ++ idSfx) nm true))
          ("api_key:" ++ hashF other) = none :=
        redisGet_setex_ne _ _ _ _ hKne hgc
      have hq : queryByHashActive
          (store ++ [(APIKeyManager.create_api_key hashF ⟨store, some c⟩
            sfx idSfx nm desc now).1.2]) (hashF other) = none :=
        queryByHashActive_append_single_none store _ _ hsh (fun e => hkh e.symm)
      simp only [APIKeyManager.verify_api_key, APIKeyManager.create_api_key,
        APIKeyManager.cacheShortcut] at hq ⊢
      rw [hget]
      simp [hq]

/-- Witness for `create_then_verify_roundtrip`: a concrete creation in
an empty store with an (empty) Redis cache; the raw secret verifies to
the created record and a different secret fails. -/
theorem create_then_verify_roundtrip_witness :
    (APIKeyManager.verify_api_key idHash
        (APIKeyManager.create_api_key idHash ⟨[], some []⟩ "s" "id1" "alice" "" 0).2
        (APIKeyManager.create_api_key idHash ⟨[], some []⟩ "s" "id1" "alice" "" 0).1.1).1 =
      some (APIKeyManager.create_api_key idHash ⟨[], some []⟩ "s" "id1" "alice" "" 0).1.2 ∧
    (APIKeyManager.verify_api_key idHash
        (APIKeyManager.create_api_key idHash ⟨[], some []⟩ "s" "id1" "alice" "" 0).2
        "zzz").1 = none := by
  have h := create_then_verify_roundtrip idHash (fun a b hab => hab) ⟨[], some []⟩
    "s" "id1" "alice" "" 0 (by decide) (by decide) (by simp) (by simp)
  exact ⟨h.1.1, h.2 "zzz" (by decide) (by simp) (fun c hc => by cases hc; rfl)⟩

/-- **C6.** For every streaming completion: the forwarded chunks are
exactly the non-empty-`choices` chunks of the upstream prefix that was
iterated, in order; when the upstream iteration does not fail the
delivered sequence ends with the sentinel `data: [DONE]`; when it fails
mid-stream the sequence ends with the in-band error chunk carrying the
first failure's message; in every case the last element is the sentinel
or an error chunk — never a bare disconnect. -/
theorem stream_order_and_termination (events : List UpEvent) :
    forwarded (stream_chat_completion events) =
      (upChunks events).filter (fun c => !c.choices.isEmpty) ∧
    (firstFail events = none →
      lastItem (stream_chat_completion events) = some .done) ∧
    (∀ m, firstFail events = some m →
      lastItem (stream_chat_completion events) = some (.errorChunk m)) ∧
    (∃ last, lastItem (stream_chat_completion events) = some last ∧
      (last = .done ∨ ∃ m, last = .errorChunk m)) := by
  refine ⟨streamGo_forwarded events 0, fun h => streamGo_lastItem_done events 0 h,
    fun m h => streamGo_lastItem_fail events 0 m h, ?_⟩
  cases hf : firstFail events with
  | none => exact ⟨.done, streamGo_lastItem_done events 0 hf, .inl rfl⟩
  | some m => exact ⟨.errorChunk m, streamGo_lastItem_fail events 0 m hf, .inr ⟨m, rfl⟩⟩

/-- Witness for `stream_order_and_termination`: a concrete mid-stream
failure ends in the error chunk, and a concrete clean stream ends in the
sentinel. -/
theorem stream_order_and_termination_witness :
    lastItem (stream_chat_completion [.chunk exChunk, .fail "boom"]) =
      some (.errorChunk "boom") ∧
    lastItem (stream_chat_completion [.chunk exChunk]) = some .done :=
  ⟨(stream_order_and_termination [.chunk exChunk, .fail "boom"]).2.2.1 "boom" rfl,
   (stream_order_and_termination [.chunk exChunk]).2.1 rfl⟩

/-- **C10.** For every streamed completion: the usage accumulator is
computed only from chunks whose `choices` list is non-empty (it equals
the capture fold over exactly those chunks of the iterated upstream
prefix); every usage row written for a stream has `prompt_tokens = 0`
and `completion_tokens` equal to its `tokens_used` total; and when no
forwarded chunk carried a positive `total_tokens` figure, no usage row
is written. -/
theorem stream_usage_accounting (logId kid provider model : String)
    (events : List UpEvent) :
    (streamGo events 0).2.1 =
      captureFold 0 ((upChunks events).filter fun c => !c.choices.isEmpty) ∧
    (∀ l ∈ stream_logs logId kid provider model events,
        l.prompt_tokens = 0 ∧ l.completion_tokens = l.tokens_used) ∧
    ((∀ c ∈ (upChunks events).filter (fun c => !c.choices.isEmpty),
        ∀ u, c.usage = some u → u.total_tokens = 0) →
      stream_logs logId kid provider model events = []) := by
  refine ⟨streamGo_total events 0, ?_, ?_⟩
  · intro l hl
    simp only [stream_logs] at hl
    split at hl
    · simp only [List.mem_singleton] at hl
      subst hl
      exact ⟨rfl, rfl⟩
    · simp at hl
  · intro h
    have h0 : (streamGo events 0).2.1 = 0 := by
      rw [streamGo_total events 0]
      exact captureFold_zero _ h
    simp [stream_logs, h0]

/-- Witness for `stream_usage_accounting`: on a concrete stream whose
only forwarded chunk carries a zero usage figure, no usage row is
written. -/
theorem stream_usage_accounting_witness :
    stream_logs "L" "ak_1" "openai" "gpt-4" [.chunk zeroUsageChunk] = [] :=
  (stream_usage_accounting "L" "ak_1" "openai" "gpt-4" [.chunk zeroUsageChunk]).2.2
    (by
      intro c hc u hu
      simp [upChunks, zeroUsageChunk, exChunk] at hc
      subst hc
      simp only [zeroUsageChunk, exChunk, Option.some.injEq] at hu
      subst hu
      rfl)
